import Mathlib

/-!
Verification of the storage-proxy abstraction layer (`ai.backend.storage`):
path mangling and sandboxing (`AbstractVolume.mangle_vfpath`,
`AbstractVolume.sanitize_vfpath`), capability vocabulary, trivial lifecycle
methods, and the local-configuration bounds of `config.py`.

Paths are modelled after `pathlib`: a pure path is an absolute-flag together
with the tuple of components (`PurePosixPath('.').parts == ()`, so the dot
path is the empty relative path). Opaque `Mapping[str, Any]` values are
modelled as association lists of strings.
-/

/-- A pure path in the style of `pathlib.PurePosixPath` / `pathlib.Path` on
POSIX: whether the path is anchored at the root, and its name components. -/
structure PPath where
  absolute : Bool
  components : List String
deriving DecidableEq, Repr

/-- The path `PurePosixPath('.')`: relative, with no components
(`PurePosixPath('.').parts == ()`). -/
def purePosixDot : PPath := ⟨false, []⟩

/-- Joining paths, as `pathlib`'s `/` operator: an absolute right operand
replaces the left one, otherwise the components are concatenated. -/
def pjoin (a b : PPath) : PPath :=
  if b.absolute then b else ⟨a.absolute, a.components ++ b.components⟩

/-- Boolean test that the first component list is an initial segment of the
second, mirroring the tuple-slicing check inside `PurePath.relative_to`. -/
def isPre : List String → List String → Bool
  | [], _ => true
  | a :: as, b :: bs => a == b && isPre as bs
  | _, [] => false

/-- Success of `target.relative_to(base)` in `pathlib`: the anchors agree and
the base's components are an initial segment of the target's. -/
def isRelativeTo (target base : PPath) : Bool :=
  (target.absolute == base.absolute) && isPre base.components target.components

/-- Lowercase hexadecimal digit character, as produced by `'%x'` formatting
(hence by `UUID.hex`). -/
def hexChar (d : Nat) : Char :=
  if d < 10 then Char.ofNat (Char.toNat '0' + d)
  else Char.ofNat (Char.toNat 'a' + (d - 10))

/-- The `n` least-significant base-16 digits of `v`, least significant first. -/
def hexDigitsLE : Nat → Nat → List Nat
  | 0, _ => []
  | n + 1, v => v % 16 :: hexDigitsLE n (v / 16)

/-- The character list of `UUID(int=v).hex`: the 32-digit, zero-padded,
lowercase hexadecimal rendering of a 128-bit id, most significant first. -/
def uuidHex (v : Nat) : List Char :=
  ((hexDigitsLE 32 v).reverse).map hexChar

/-- State held by `AbstractVolume.__init__`: the backend-local config mapping,
the physical mount root, the optional namespacing path prefix (the source's
`fsprefix` field), and the capability-dependent options block. -/
structure Volume where
  local_config : List (String × String)
  mount_path : PPath
  fsPrefixDir : PPath
  config : List (String × String)
deriving DecidableEq, Repr

/-- The body of `AbstractVolume.__init__`: `self.fsprefix = fsprefix or
PurePath('.')` and `self.config = options or {}` (the defaults are `None`). -/
def Volume.make (local_config : List (String × String)) (mount_path : PPath)
    (fsp : Option PPath) (options : Option (List (String × String))) : Volume :=
  ⟨local_config, mount_path, fsp.getD purePosixDot, options.getD []⟩

/-- `AbstractVolume.mangle_vfpath`: `Path(self.mount_path, vfid.hex[0:2],
vfid.hex[2:4], vfid.hex[4:])`. -/
def mangle_vfpath (vol : Volume) (vfid : Nat) : PPath :=
  let hex := uuidHex vfid
  ⟨vol.mount_path.absolute,
   vol.mount_path.components ++
     [String.mk (hex.take 2), String.mk ((hex.drop 2).take 2), String.mk (hex.drop 4)]⟩

/-- Errors a `sanitize_vfpath` call can raise: the `PermissionError` of the
containment check, and a failure of `Path.resolve` itself (e.g. the
`RuntimeError` raised on a symbolic-link loop). -/
inductive SanErr where
  | pathEscape
  | resolveFailure
deriving DecidableEq, Repr

/-- `AbstractVolume.sanitize_vfpath`, parameterised by the operating system's
path-resolution behaviour `res` (what `Path.resolve()` returns, `none` when
resolution itself fails): default the missing relpath to `PurePosixPath('.')`,
join onto the mangled directory, resolve, and require the resolved target to
be `relative_to` the unresolved mangled directory, raising otherwise. -/
def sanitize_vfpath (res : PPath → Option PPath) (vol : Volume) (vfid : Nat)
    (relpath : Option PPath) : Except SanErr PPath :=
  let rel := relpath.getD purePosixDot
  let vfpath := mangle_vfpath vol vfid
  match res (pjoin vfpath rel) with
  | none => .error .resolveFailure
  | some target =>
    if isRelativeTo target vfpath then .ok target else .error .pathEscape

/-- A symbolic-link table: canonical absolute component lists mapped to the
(absolute) component lists of their targets. -/
abbrev Links : Type := List (List String × List String)

/-- Association lookup of a path in the symbolic-link table. -/
def lookupLink (links : Links) (p : List String) : Option (List String) :=
  (List.find? (fun e => e.fst == p) links).map (fun e => e.snd)

/-- One fuelled pass of POSIX path resolution as `Path.resolve` performs it:
components are consumed left to right over an already-canonical current path;
`.` is dropped, `..` removes the last canonical component, and a component
that names a symbolic link restarts resolution at the link target. Fuel
exhaustion models the `RuntimeError` on symbolic-link loops. -/
def resolveComps (links : Links) : Nat → List String → List String → Option (List String)
  | 0, _, _ => none
  | _ + 1, cur, [] => some cur
  | fuel + 1, cur, c :: rest =>
    if c = "." then resolveComps links fuel cur rest
    else if c = ".." then resolveComps links fuel cur.dropLast rest
    else
      match lookupLink links (cur ++ [c]) with
      | none => resolveComps links fuel (cur ++ [c]) rest
      | some tgt =>
        match resolveComps links fuel [] tgt with
        | none => none
        | some base => resolveComps links fuel base rest

/-- `Path.resolve()` against a concrete environment: a current working
directory (used to anchor relative paths) and a symbolic-link table. The
result is always an absolute path. -/
def osResolve (cwd : List String) (links : Links) (p : PPath) : Option PPath :=
  let comps := (if p.absolute then [] else cwd) ++ p.components
  (resolveComps links ((comps.length + 64) * (links.length + 1) + 1) [] comps).map
    (fun out => ⟨true, out⟩)

-- ------ basic lemmas about the prefix test ------

theorem isPre_refl : ∀ l : List String, isPre l l = true
  | [] => by simp [isPre]
  | a :: as => by simp [isPre, isPre_refl as]

theorem isPre_append : ∀ l t : List String, isPre l (l ++ t) = true
  | [], _ => by simp [isPre]
  | a :: as, t => by simp [isPre, isPre_append as t]

theorem isPre_iff : ∀ l m : List String, isPre l m = true ↔ ∃ t, m = l ++ t
  | [], m => by simp [isPre]
  | a :: as, [] => by simp [isPre]
  | a :: as, b :: bs => by
    simp only [isPre, Bool.and_eq_true, beq_iff_eq, isPre_iff as bs]
    constructor
    · rintro ⟨h1, t, h2⟩
      exact ⟨t, by simp [h1, h2]⟩
    · rintro ⟨t, h⟩
      simp only [List.cons_append, List.cons.injEq] at h
      exact ⟨h.1.symm, t, h.2⟩

theorem isPre_trans {a b c : List String} (h1 : isPre a b = true)
    (h2 : isPre b c = true) : isPre a c = true := by
  rw [isPre_iff] at h1 h2 ⊢
  obtain ⟨t1, rfl⟩ := h1
  obtain ⟨t2, rfl⟩ := h2
  exact ⟨t1 ++ t2, by simp⟩

theorem isPre_snoc {pre cur : List String} {c : String}
    (h : isPre pre (cur ++ [c]) = true) : isPre pre cur = true ∨ pre = cur ++ [c] := by
  rw [isPre_iff] at h
  obtain ⟨t, ht⟩ := h
  rcases List.eq_nil_or_concat t with rfl | ⟨t0, z, rfl⟩
  · right; simpa using ht.symm
  · left
    rw [isPre_iff]
    rw [List.concat_eq_append, ← List.append_assoc] at ht
    have := List.append_inj' ht (by simp)
    exact ⟨t0, this.1⟩

theorem isPre_dropLast {pre cur : List String}
    (h : isPre pre cur.dropLast = true) : isPre pre cur = true := by
  rcases List.eq_nil_or_concat cur with rfl | ⟨l, z, rfl⟩
  · simpa using h
  · rw [List.concat_eq_append] at h ⊢
    rw [List.dropLast_concat] at h
    exact isPre_trans h (isPre_append l [z])

-- a quick sanity check of the embedding on a concrete run
example :
    sanitize_vfpath (osResolve [] []) (Volume.make [] ⟨true, ["mnt"]⟩ none none) 0 none =
      .ok ⟨true, ["mnt", "00", "00", "0000000000000000000000000000"]⟩ := rfl

-- ------ hexadecimal rendering lemmas ------

/-- Value of a little-endian base-16 digit list. -/
def ofHexLE : List Nat → Nat
  | [] => 0
  | d :: ds => d + 16 * ofHexLE ds

/-- Membership test for the sixteen lowercase hexadecimal digit characters. -/
def isLowerHex (c : Char) : Bool :=
  (Char.toNat '0' ≤ c.toNat && c.toNat ≤ Char.toNat '9') ||
    (Char.toNat 'a' ≤ c.toNat && c.toNat ≤ Char.toNat 'f')

theorem hexDigitsLE_length : ∀ n v : Nat, (hexDigitsLE n v).length = n
  | 0, _ => rfl
  | n + 1, v => by simp [hexDigitsLE, hexDigitsLE_length n (v / 16)]

theorem hexDigitsLE_lt : ∀ (n v d : Nat), d ∈ hexDigitsLE n v → d < 16
  | 0, v, d, hd => by simp [hexDigitsLE] at hd
  | n + 1, v, d, hd => by
    simp only [hexDigitsLE, List.mem_cons] at hd
    rcases hd with rfl | hd
    · exact Nat.mod_lt _ (by norm_num)
    · exact hexDigitsLE_lt n (v / 16) d hd

theorem ofHexLE_hexDigitsLE : ∀ n v : Nat, v < 16 ^ n → ofHexLE (hexDigitsLE n v) = v
  | 0, v, hv => by
    simp only [pow_zero, Nat.lt_one_iff] at hv
    subst hv; rfl
  | n + 1, v, hv => by
    have hdiv : v / 16 < 16 ^ n := by
      rw [Nat.div_lt_iff_lt_mul (by norm_num)]
      calc v < 16 ^ (n + 1) := hv
        _ = 16 ^ n * 16 := by rw [pow_succ]
    simp only [hexDigitsLE, ofHexLE, ofHexLE_hexDigitsLE n (v / 16) hdiv]
    omega

theorem hexChar_inj : ∀ a, a < 16 → ∀ b, b < 16 → hexChar a = hexChar b → a = b := by
  decide

theorem hexChar_isLowerHex : ∀ d, d < 16 → isLowerHex (hexChar d) = true := by
  decide

theorem map_hexChar_inj : ∀ l1 l2 : List Nat, (∀ d ∈ l1, d < 16) → (∀ d ∈ l2, d < 16) →
    l1.map hexChar = l2.map hexChar → l1 = l2
  | [], [], _, _, _ => rfl
  | [], _ :: _, _, _, h => by simp at h
  | _ :: _, [], _, _, h => by simp at h
  | a :: as, b :: bs, ha, hb, h => by
    simp only [List.map_cons, List.cons.injEq] at h
    have hab := hexChar_inj a (ha a (by simp)) b (hb b (by simp)) h.1
    have htl := map_hexChar_inj as bs (fun d hd => ha d (by simp [hd]))
      (fun d hd => hb d (by simp [hd])) h.2
    simp [hab, htl]

theorem uuidHex_length (v : Nat) : (uuidHex v).length = 32 := by
  simp [uuidHex, hexDigitsLE_length]

theorem uuidHex_lower (v : Nat) : (uuidHex v).all isLowerHex = true := by
  rw [List.all_eq_true]
  intro c hc
  simp only [uuidHex, List.mem_map, List.mem_reverse] at hc
  obtain ⟨d, hd, rfl⟩ := hc
  exact hexChar_isLowerHex d (hexDigitsLE_lt 32 v d hd)

theorem uuidHex_inj {v1 v2 : Nat} (h1 : v1 < 2 ^ 128) (h2 : v2 < 2 ^ 128)
    (h : uuidHex v1 = uuidHex v2) : v1 = v2 := by
  have hp : (2 : Nat) ^ 128 = 16 ^ 32 := by norm_num
  rw [hp] at h1 h2
  have hd : hexDigitsLE 32 v1 = hexDigitsLE 32 v2 := by
    have hr := map_hexChar_inj _ _
      (fun d hd => hexDigitsLE_lt 32 v1 d (List.mem_reverse.mp hd))
      (fun d hd => hexDigitsLE_lt 32 v2 d (List.mem_reverse.mp hd)) h
    exact List.reverse_injective hr
  calc v1 = ofHexLE (hexDigitsLE 32 v1) := (ofHexLE_hexDigitsLE 32 v1 h1).symm
    _ = ofHexLE (hexDigitsLE 32 v2) := by rw [hd]
    _ = v2 := ofHexLE_hexDigitsLE 32 v2 h2

theorem take_take_drop_eq (l : List Char) :
    l.take 2 ++ ((l.drop 2).take 2 ++ (l.drop 2).drop 2) = l := by
  rw [List.take_append_drop, List.take_append_drop]

theorem hex_split_eq (v : Nat) :
    uuidHex v = (uuidHex v).take 2 ++ (((uuidHex v).drop 2).take 2 ++ (uuidHex v).drop 4) := by
  have h := take_take_drop_eq (uuidHex v)
  have h4 : ((uuidHex v).drop 2).drop 2 = (uuidHex v).drop 4 := by
    rw [List.drop_drop]
  rw [h4] at h
  exact h.symm

-- ------ claim C3 and C4 ------

/-- C3: `mangle_vfpath` renders the 128-bit vfid as a 32-digit lowercase
hexadecimal string, splits it into the first 2 digits, the next 2 digits and
the remaining 28 digits, and returns `mount_root / seg1 / seg2 / seg3`; the id
with hex form `12345678123456781234567812345678` mangles to
`<mount>/12/34/5678123456781234567812345678`. -/
theorem mangle_vfpath_splits_hex :
    (∀ (vol : Volume) (vfid : Nat),
      (uuidHex vfid).length = 32 ∧
      (uuidHex vfid).all isLowerHex = true ∧
      ((uuidHex vfid).take 2).length = 2 ∧
      (((uuidHex vfid).drop 2).take 2).length = 2 ∧
      ((uuidHex vfid).drop 4).length = 28 ∧
      mangle_vfpath vol vfid =
        ⟨vol.mount_path.absolute,
         vol.mount_path.components ++
           [String.mk ((uuidHex vfid).take 2),
            String.mk (((uuidHex vfid).drop 2).take 2),
            String.mk ((uuidHex vfid).drop 4)]⟩) ∧
    (∀ vol : Volume,
      mangle_vfpath vol 0x12345678123456781234567812345678 =
        ⟨vol.mount_path.absolute,
         vol.mount_path.components ++ ["12", "34", "5678123456781234567812345678"]⟩) := by
  constructor
  · intro vol vfid
    refine ⟨uuidHex_length vfid, uuidHex_lower vfid, ?_, ?_, ?_, rfl⟩
    · simp [List.length_take, uuidHex_length]
    · simp [List.length_take, List.length_drop, uuidHex_length]
    · simp [List.length_drop, uuidHex_length]
  · intro vol
    have h : [String.mk ((uuidHex 0x12345678123456781234567812345678).take 2),
              String.mk (((uuidHex 0x12345678123456781234567812345678).drop 2).take 2),
              String.mk ((uuidHex 0x12345678123456781234567812345678).drop 4)] =
             ["12", "34", "5678123456781234567812345678"] := by decide
    exact congrArg
      (fun l => PPath.mk vol.mount_path.absolute (vol.mount_path.components ++ l)) h

/-- C4: `mangle_vfpath` is injective on a fixed Volume instance: distinct
valid 128-bit ids mangle to distinct physical directories. -/
theorem mangle_vfpath_injective (vol : Volume) {v1 v2 : Nat}
    (h1 : v1 < 2 ^ 128) (h2 : v2 < 2 ^ 128) (hne : v1 ≠ v2) :
    mangle_vfpath vol v1 ≠ mangle_vfpath vol v2 := by
  intro heq
  apply hne
  apply uuidHex_inj h1 h2
  have hc := congrArg PPath.components heq
  simp only [mangle_vfpath] at hc
  have hc2 := List.append_cancel_left hc
  simp only [List.cons.injEq, and_true] at hc2
  obtain ⟨e1, e2, e3⟩ := hc2
  have e1d : List.take 2 (uuidHex v1) = List.take 2 (uuidHex v2) :=
    congrArg String.data e1
  have e2d : List.take 2 (List.drop 2 (uuidHex v1)) = List.take 2 (List.drop 2 (uuidHex v2)) :=
    congrArg String.data e2
  have e3d : List.drop 4 (uuidHex v1) = List.drop 4 (uuidHex v2) :=
    congrArg String.data e3
  rw [hex_split_eq v1, hex_split_eq v2, e1d, e2d, e3d]

/-- Witness for C4 at the concrete ids 0 and 1. -/
theorem mangle_vfpath_injective_witness :
    (0 : Nat) < 2 ^ 128 ∧ (1 : Nat) < 2 ^ 128 ∧ (0 : Nat) ≠ 1 ∧
      mangle_vfpath (Volume.make [] ⟨true, ["mnt"]⟩ none none) 0 ≠
        mangle_vfpath (Volume.make [] ⟨true, ["mnt"]⟩ none none) 1 :=
  ⟨by norm_num, by norm_num, by norm_num,
    mangle_vfpath_injective (Volume.make [] ⟨true, ["mnt"]⟩ none none)
      (by norm_num) (by norm_num) (by norm_num)⟩

-- ------ claims C1, C2, C5 ------

theorem pjoin_dot (p : PPath) : pjoin p purePosixDot = p := by
  cases p with
  | mk a c => simp [pjoin, purePosixDot]

/-- C1: whenever `sanitize_vfpath` returns a path at all — for any resolution
behaviour, any vfid and any (possibly absent) relative path — the returned
path is equal to, or a descendant of, the directory `mangle_vfpath vfid`: the
anchors agree and the mangled directory's components are an initial segment
of the returned path's components. -/
theorem sanitize_vfpath_in_sandbox (res : PPath → Option PPath) (vol : Volume)
    (vfid : Nat) (relpath : Option PPath) (p : PPath)
    (h : sanitize_vfpath res vol vfid relpath = .ok p) :
    p.absolute = (mangle_vfpath vol vfid).absolute ∧
      ∃ rest, p.components = (mangle_vfpath vol vfid).components ++ rest := by
  simp only [sanitize_vfpath] at h
  split at h
  · exact absurd h (by simp)
  · split at h
    · rename_i target hres hrel
      injection h with h2
      subst h2
      simp only [isRelativeTo, Bool.and_eq_true, beq_iff_eq] at hrel
      exact ⟨hrel.1, (isPre_iff _ _).mp hrel.2⟩
    · exact absurd h (by simp)

/-- Witness for C1: a concrete successful call, whose result carries the
mangled directory as a component-list initial segment. -/
theorem sanitize_vfpath_in_sandbox_witness :
    sanitize_vfpath (osResolve [] []) (Volume.make [] ⟨true, ["mnt"]⟩ none none) 0
        (some ⟨false, ["data", "x.txt"]⟩) =
      .ok ⟨true, ["mnt", "00", "00", "0000000000000000000000000000", "data", "x.txt"]⟩ ∧
    ((⟨true, ["mnt", "00", "00", "0000000000000000000000000000", "data", "x.txt"]⟩ : PPath).absolute =
        (mangle_vfpath (Volume.make [] ⟨true, ["mnt"]⟩ none none) 0).absolute ∧
      ∃ rest,
        (⟨true, ["mnt", "00", "00", "0000000000000000000000000000", "data", "x.txt"]⟩ : PPath).components =
          (mangle_vfpath (Volume.make [] ⟨true, ["mnt"]⟩ none none) 0).components ++ rest) :=
  ⟨rfl, sanitize_vfpath_in_sandbox (osResolve [] []) (Volume.make [] ⟨true, ["mnt"]⟩ none none)
    0 (some ⟨false, ["data", "x.txt"]⟩) _ rfl⟩

/-- C2: when the full resolution of the joined path lies outside (in
particular, above) the mangled vfolder directory, `sanitize_vfpath` raises the
path-escape error rather than returning any path — escapes are rejected, never
silently corrected into an in-sandbox path. -/
theorem sanitize_vfpath_escape_raises (cwd : List String) (links : Links)
    (vol : Volume) (vfid : Nat) (rel : PPath) (t : PPath)
    (hres : osResolve cwd links (pjoin (mangle_vfpath vol vfid) rel) = some t)
    (hout : isRelativeTo t (mangle_vfpath vol vfid) = false) :
    sanitize_vfpath (osResolve cwd links) vol vfid (some rel) = .error .pathEscape := by
  simp only [sanitize_vfpath, Option.getD_some]
  rw [hres]
  simp [hout]

/-- Witness for C2: `../../etc/passwd` resolves above the mangled directory
and the call raises the path-escape error. -/
theorem sanitize_vfpath_escape_raises_witness :
    (osResolve [] [] (pjoin (mangle_vfpath (Volume.make [] ⟨true, ["mnt"]⟩ none none) 0)
        ⟨false, ["..", "..", "etc", "passwd"]⟩) =
      some ⟨true, ["mnt", "00", "etc", "passwd"]⟩ ∧
     isRelativeTo ⟨true, ["mnt", "00", "etc", "passwd"]⟩
        (mangle_vfpath (Volume.make [] ⟨true, ["mnt"]⟩ none none) 0) = false) ∧
    sanitize_vfpath (osResolve [] []) (Volume.make [] ⟨true, ["mnt"]⟩ none none) 0
        (some ⟨false, ["..", "..", "etc", "passwd"]⟩) = .error .pathEscape :=
  ⟨⟨rfl, rfl⟩,
    sanitize_vfpath_escape_raises [] [] (Volume.make [] ⟨true, ["mnt"]⟩ none none) 0
      ⟨false, ["..", "..", "etc", "passwd"]⟩ ⟨true, ["mnt", "00", "etc", "passwd"]⟩ rfl rfl⟩

/-- C5: with an absent relative path, in an environment where the mangled
directory resolves to itself (a canonical absolute mount root), the call
succeeds and returns exactly `mangle_vfpath vfid`, for every vfid. -/
theorem sanitize_vfpath_none_eq_mangle (res : PPath → Option PPath) (vol : Volume)
    (vfid : Nat)
    (hres : res (mangle_vfpath vol vfid) = some (mangle_vfpath vol vfid)) :
    sanitize_vfpath res vol vfid none = .ok (mangle_vfpath vol vfid) := by
  simp only [sanitize_vfpath, Option.getD_none, pjoin_dot, hres]
  simp [isRelativeTo, isPre_refl]

/-- Witness for C5: a concrete canonical mount, where the absent-relpath call
returns the mangled directory. -/
theorem sanitize_vfpath_none_eq_mangle_witness :
    osResolve [] [] (mangle_vfpath (Volume.make [] ⟨true, ["mnt"]⟩ none none) 5) =
      some (mangle_vfpath (Volume.make [] ⟨true, ["mnt"]⟩ none none) 5) ∧
    sanitize_vfpath (osResolve [] []) (Volume.make [] ⟨true, ["mnt"]⟩ none none) 5 none =
      .ok (mangle_vfpath (Volume.make [] ⟨true, ["mnt"]⟩ none none) 5) :=
  ⟨rfl, sanitize_vfpath_none_eq_mangle (osResolve [] [])
    (Volume.make [] ⟨true, ["mnt"]⟩ none none) 5 rfl⟩

-- ------ canonical-form reasoning for claim C9 ------

/-- No nonempty initial segment of `cur` names a symbolic link. Fully resolved
paths satisfy this: `resolveComps` only ever extends a current path by a
component it has checked not to be a link. -/
def LinkFree (links : Links) (cur : List String) : Prop :=
  ∀ pre, pre ≠ [] → isPre pre cur = true → lookupLink links pre = none

theorem linkFree_nil (links : Links) : LinkFree links [] := by
  intro pre hne hp
  cases pre with
  | nil => exact absurd rfl hne
  | cons a as => simp [isPre] at hp

theorem linkFree_dropLast {links : Links} {cur : List String} (h : LinkFree links cur) :
    LinkFree links cur.dropLast :=
  fun pre hne hp => h pre hne (isPre_dropLast hp)

theorem linkFree_snoc {links : Links} {cur : List String} {c : String}
    (h : LinkFree links cur) (hc : lookupLink links (cur ++ [c]) = none) :
    LinkFree links (cur ++ [c]) := by
  intro pre hne hp
  rcases isPre_snoc hp with h1 | rfl
  · exact h pre hne h1
  · exact hc

theorem resolveComps_linkFree (links : Links) :
    ∀ (fuel : Nat) (cur comps out : List String),
      LinkFree links cur → resolveComps links fuel cur comps = some out →
      LinkFree links out := by
  intro fuel
  induction fuel with
  | zero => intro cur comps out _ h; simp [resolveComps] at h
  | succ n ih =>
    intro cur comps out hlf h
    cases comps with
    | nil =>
      simp only [resolveComps, Option.some.injEq] at h
      subst h; exact hlf
    | cons c rest =>
      simp only [resolveComps] at h
      by_cases hdot : c = "."
      · rw [if_pos hdot] at h
        exact ih cur rest out hlf h
      · rw [if_neg hdot] at h
        by_cases hdd : c = ".."
        · rw [if_pos hdd] at h
          exact ih _ rest out (linkFree_dropLast hlf) h
        · rw [if_neg hdd] at h
          cases hlk : lookupLink links (cur ++ [c]) with
          | none =>
            rw [hlk] at h
            exact ih _ rest out (linkFree_snoc hlf hlk) h
          | some tgt =>
            rw [hlk] at h
            have h2 : (match resolveComps links n [] tgt with
                | none => none
                | some base => resolveComps links n base rest) = some out := h
            cases hbase : resolveComps links n [] tgt with
            | none => rw [hbase] at h2; exact absurd h2 (by simp)
            | some base =>
              rw [hbase] at h2
              exact ih base rest out (ih [] tgt base (linkFree_nil links) hbase) h2

/-- C9: `sanitize_vfpath` compares the fully resolved target against the
unresolved mangled directory, so whenever that directory is not its own
canonical absolute form — the mount root is relative, or some initial segment
of the mangled path is a symbolic link — the call never succeeds: every
relative path, the benign absent one included, is rejected with the
path-escape error (or with the resolution failure of a symbolic-link loop).
A Volume therefore only functions with a canonical absolute mount root. -/
theorem sanitize_vfpath_noncanonical_mount (cwd : List String) (links : Links)
    (vol : Volume) (vfid : Nat)
    (h : vol.mount_path.absolute = false ∨
         ∃ pre tgt, pre ≠ [] ∧ isPre pre (mangle_vfpath vol vfid).components = true ∧
           lookupLink links pre = some tgt) :
    ∀ relpath : Option PPath,
      sanitize_vfpath (osResolve cwd links) vol vfid relpath = .error .pathEscape ∨
      sanitize_vfpath (osResolve cwd links) vol vfid relpath = .error .resolveFailure := by
  intro relpath
  cases hres : osResolve cwd links (pjoin (mangle_vfpath vol vfid) (relpath.getD purePosixDot)) with
  | none =>
    right
    simp only [sanitize_vfpath]
    rw [hres]
  | some target =>
    left
    have hmap := hres
    simp only [osResolve] at hmap
    rcases Option.map_eq_some'.mp hmap with ⟨out, hout, htar⟩
    have hfalse : isRelativeTo target (mangle_vfpath vol vfid) = false := by
      subst htar
      rcases h with habs | ⟨pre, tgt, hne, hpre, hlink⟩
      · have hm : (mangle_vfpath vol vfid).absolute = false := habs
        simp [isRelativeTo, hm]
      · cases hb : isRelativeTo ⟨true, out⟩ (mangle_vfpath vol vfid) with
        | false => rfl
        | true =>
          exfalso
          simp only [isRelativeTo, Bool.and_eq_true, beq_iff_eq] at hb
          have hlf := resolveComps_linkFree links _ [] _ out (linkFree_nil links) hout
          exact absurd (hlf pre hne (isPre_trans hpre hb.2)) (by simp [hlink])
    simp only [sanitize_vfpath]
    rw [hres]
    simp [hfalse]

/-- Witness for C9: a symbolic link sitting on the mount-path component makes
the absent-relpath call fail. -/
theorem sanitize_vfpath_noncanonical_mount_witness :
    (["mnt"] ≠ ([] : List String) ∧
     isPre ["mnt"] (mangle_vfpath (Volume.make [] ⟨true, ["mnt"]⟩ none none) 0).components = true ∧
     lookupLink [(["mnt"], ["real"])] ["mnt"] = some ["real"]) ∧
    (sanitize_vfpath (osResolve [] [(["mnt"], ["real"])])
        (Volume.make [] ⟨true, ["mnt"]⟩ none none) 0 none = .error .pathEscape ∨
     sanitize_vfpath (osResolve [] [(["mnt"], ["real"])])
        (Volume.make [] ⟨true, ["mnt"]⟩ none none) 0 none = .error .resolveFailure) :=
  ⟨⟨by simp, rfl, rfl⟩,
    sanitize_vfpath_noncanonical_mount [] [(["mnt"], ["real"])]
      (Volume.make [] ⟨true, ["mnt"]⟩ none none) 0
      (Or.inr ⟨["mnt"], ["real"], by simp, rfl, rfl⟩) none⟩

-- ------ claim C6: the stored path prefix and mangle_vfpath ------

/-- Counterexample for C6: two Volume instances with the same mount root but
different path prefixes compute the same physical directory for the same
vfid — `mangle_vfpath` never reads the stored prefix. -/
theorem mangle_vfpath_fsPrefixDir_counterexample :
    (Volume.make [] ⟨true, ["mnt"]⟩ (some ⟨false, ["a"]⟩) none).mount_path =
        (Volume.make [] ⟨true, ["mnt"]⟩ (some ⟨false, ["b"]⟩) none).mount_path ∧
    (Volume.make [] ⟨true, ["mnt"]⟩ (some ⟨false, ["a"]⟩) none).fsPrefixDir ≠
        (Volume.make [] ⟨true, ["mnt"]⟩ (some ⟨false, ["b"]⟩) none).fsPrefixDir ∧
    mangle_vfpath (Volume.make [] ⟨true, ["mnt"]⟩ (some ⟨false, ["a"]⟩) none) 7 =
        mangle_vfpath (Volume.make [] ⟨true, ["mnt"]⟩ (some ⟨false, ["b"]⟩) none) 7 :=
  ⟨rfl, by decide, rfl⟩

/-- C6 amended: the path prefix passed to the constructor is stored on the
Volume, but `mangle_vfpath` never consults it: two Volume instances sharing a
mount root compute the same physical directory for every vfid, whatever their
prefixes. -/
theorem mangle_vfpath_ignores_fsPrefixDir :
    (∀ (vol1 vol2 : Volume) (vfid : Nat), vol1.mount_path = vol2.mount_path →
      mangle_vfpath vol1 vfid = mangle_vfpath vol2 vfid) ∧
    (∀ (lc : List (String × String)) (mp : PPath) (fsp : PPath)
        (opts : Option (List (String × String))),
      (Volume.make lc mp (some fsp) opts).fsPrefixDir = fsp) := by
  constructor
  · intro vol1 vol2 vfid h
    simp [mangle_vfpath, h]
  · intro lc mp fsp opts
    rfl

/-- Witness for the amended C6 at a concrete pair of Volumes. -/
theorem mangle_vfpath_ignores_fsPrefixDir_witness :
    (Volume.make [] ⟨true, ["mnt"]⟩ (some ⟨false, ["a"]⟩) none).mount_path =
        (Volume.make [] ⟨true, ["mnt"]⟩ (some ⟨false, ["b"]⟩) none).mount_path ∧
    mangle_vfpath (Volume.make [] ⟨true, ["mnt"]⟩ (some ⟨false, ["a"]⟩) none) 3 =
        mangle_vfpath (Volume.make [] ⟨true, ["mnt"]⟩ (some ⟨false, ["b"]⟩) none) 3 :=
  ⟨rfl, mangle_vfpath_ignores_fsPrefixDir.1 _ _ 3 rfl⟩

-- ------ claim C7: the capability vocabulary ------

/-- Capability constant `CAP_VFOLDER` of `abc.py`. -/
def CAP_VFOLDER : String := "vfolder"

/-- Capability constant `CAP_METRIC` of `abc.py`. -/
def CAP_METRIC : String := "metric"

/-- Capability constant `CAP_QUOTA` of `abc.py`. -/
def CAP_QUOTA : String := "quota"

/-- Capability constant `CAP_FAST_SCAN` of `abc.py`. -/
def CAP_FAST_SCAN : String := "fast-scan"

/-- The fixed capability vocabulary: the four flag constants. -/
def capabilityVocabulary : List String := [CAP_VFOLDER, CAP_METRIC, CAP_QUOTA, CAP_FAST_SCAN]

/-- Modelled from the spec: the concrete backends implementing
`get_capabilities` are not part of this repository (`abc.py` only declares the
abstract method); per the spec a backend "exposes `get_capabilities()`
returning a set drawn from a fixed vocabulary", so a backend is modelled by
the flag set it advertises together with that contract. -/
structure BackendCapabilities where
  get_capabilities : List String
  caps_valid : ∀ c ∈ get_capabilities, c ∈ capabilityVocabulary

/-- C7: the fixed vocabulary consists of exactly the four flags `vfolder`,
`metric`, `quota` and `fast-scan`, and any set returned by
`get_capabilities` only holds values among these four. -/
theorem get_capabilities_subset_vocabulary :
    capabilityVocabulary = ["vfolder", "metric", "quota", "fast-scan"] ∧
    ∀ (b : BackendCapabilities), ∀ c ∈ b.get_capabilities,
      c = "vfolder" ∨ c = "metric" ∨ c = "quota" ∨ c = "fast-scan" := by
  refine ⟨rfl, ?_⟩
  intro b c hc
  have h := b.caps_valid c hc
  simpa [capabilityVocabulary, CAP_VFOLDER, CAP_METRIC, CAP_QUOTA, CAP_FAST_SCAN] using h

/-- Witness for C7 on a backend advertising the quota capability. -/
theorem get_capabilities_subset_vocabulary_witness :
    "quota" = "vfolder" ∨ "quota" = "metric" ∨ "quota" = "quota" ∨ "quota" = "fast-scan" :=
  get_capabilities_subset_vocabulary.2 ⟨["quota"], by decide⟩ "quota" (by simp)

-- ------ claim C8: trivial lifecycle methods ------

/-- `AbstractVolume.init`: the default body is `pass`, a state transformer
that performs no action; it returns `None` and leaves the instance as is. -/
def Volume.init (vol : Volume) : Volume × Unit := (vol, ())

/-- `AbstractVolume.shutdown`: the default body is `pass`. -/
def Volume.shutdown (vol : Volume) : Volume × Unit := (vol, ())

/-- C8: the default lifecycle methods are trivial: for every Volume state both
`init` and `shutdown` perform no action and leave every field — local_config,
mount_path, the path prefix, config — unchanged. -/
theorem init_shutdown_trivial (vol : Volume) :
    (Volume.init vol).1 = vol ∧
    (Volume.shutdown vol).1 = vol ∧
    (Volume.init vol).1.local_config = vol.local_config ∧
    (Volume.init vol).1.mount_path = vol.mount_path ∧
    (Volume.init vol).1.fsPrefixDir = vol.fsPrefixDir ∧
    (Volume.init vol).1.config = vol.config ∧
    (Volume.shutdown vol).1.local_config = vol.local_config ∧
    (Volume.shutdown vol).1.mount_path = vol.mount_path ∧
    (Volume.shutdown vol).1.fsPrefixDir = vol.fsPrefixDir ∧
    (Volume.shutdown vol).1.config = vol.config :=
  ⟨rfl, rfl, rfl, rfl, rfl, rfl, rfl, rfl, rfl, rfl⟩

-- ------ claim C10: local configuration bounds ------

/-- The `num-proc` entry of `local_config_iv`:
`t.Key('num-proc', default=_max_cpu_count): t.Int[1:_max_cpu_count]` with
`_max_cpu_count = os.cpu_count()` — an absent key defaults to the CPU count,
a present integer passes iff it lies in `[1, cpu_count]`. -/
def check_num_proc (maxCpuCount : Int) (v : Option Int) : Option Int :=
  match v with
  | none => some maxCpuCount
  | some x => if 1 ≤ x ∧ x ≤ maxCpuCount then some x else none

/-- The `scandir-limit` entry of `local_config_iv`:
`t.Key('scandir-limit', default=1000): t.Int[0:]` — an absent key defaults to
1000, a present integer passes iff it is non-negative. -/
def check_scandir_limit (v : Option Int) : Option Int :=
  match v with
  | none => some 1000
  | some x => if 0 ≤ x then some x else none

/-- C10: the validator accepts a `num-proc` count only if it is an integer
between 1 and the machine's CPU count inclusive, defaulting to the CPU count
when absent, and a `scandir-limit` only if it is a non-negative integer,
defaulting to 1000 when absent; violations are rejected. -/
theorem local_config_iv_bounds (maxCpuCount : Int) :
    check_num_proc maxCpuCount none = some maxCpuCount ∧
    (∀ x : Int, (1 ≤ x ∧ x ≤ maxCpuCount) → check_num_proc maxCpuCount (some x) = some x) ∧
    (∀ x : Int, ¬(1 ≤ x ∧ x ≤ maxCpuCount) → check_num_proc maxCpuCount (some x) = none) ∧
    check_scandir_limit none = some 1000 ∧
    (∀ x : Int, 0 ≤ x → check_scandir_limit (some x) = some x) ∧
    (∀ x : Int, x < 0 → check_scandir_limit (some x) = none) := by
  refine ⟨rfl, ?_, ?_, rfl, ?_, ?_⟩
  · intro x hx
    simp only [check_num_proc]
    rw [if_pos hx]
  · intro x hx
    simp only [check_num_proc]
    rw [if_neg hx]
  · intro x hx
    simp only [check_scandir_limit]
    rw [if_pos hx]
  · intro x hx
    simp only [check_scandir_limit]
    rw [if_neg (by omega)]

/-- Witness for C10 at concrete values (CPU count 8). -/
theorem local_config_iv_bounds_witness :
    ((1 : Int) ≤ 4 ∧ (4 : Int) ≤ 8) ∧ check_num_proc 8 (some 4) = some 4 ∧
    ¬((1 : Int) ≤ 0 ∧ (0 : Int) ≤ 8) ∧ check_num_proc 8 (some 0) = none ∧
    (0 : Int) ≤ 7 ∧ check_scandir_limit (some 7) = some 7 ∧
    (-1 : Int) < 0 ∧ check_scandir_limit (some (-1)) = none :=
  ⟨by norm_num, (local_config_iv_bounds 8).2.1 4 (by norm_num),
   by norm_num, (local_config_iv_bounds 8).2.2.1 0 (by norm_num),
   by norm_num, (local_config_iv_bounds 8).2.2.2.2.1 7 (by norm_num),
   by norm_num, (local_config_iv_bounds 8).2.2.2.2.2 (-1) (by norm_num)⟩
